import Mathlib

/-!
Verification of the model asset lifecycle manager of the transcribe-audio
repository (src/fileManage.ts and the earlier inline variant of the same
module).  The repository ships two variants of the manager:

* the current variant (called V1 below, `src/unnamed/part_001`): `loadStates`
  only merges the persisted record with the catalog default, a separate
  `normalizeStatesOnStartup` pass resets stale `downloading` records once at
  startup, and the download loop re-reads the persisted state before every
  chunk;
* the earlier variant (called V0 below, the `fileManage` half of
  `src/unnamed/part_000`): `loadStates` resets `downloading` records inline on
  every load, and the download loop has no persisted-state check.

Shared names without a suffix embed the V1 code; names with a `V0` suffix
embed the earlier variant where the two differ.  JavaScript numbers that hold
percentages are modelled as `Int`; byte counts as `Nat`.
-/

namespace TranscribeAudio

/-- The closed model catalog: `type ModelKey = 'tiny' | 'base' | 'small' |
'medium' | 'large'`. -/
inductive ModelKey
| tiny
| base
| small
| medium
| large
deriving DecidableEq, Repr

/-- The lifecycle states of `interface ModelState`:
`'not-downloaded' | 'downloading' | 'downloaded'`. -/
inductive LState
| notDownloaded
| downloading
| downloaded
deriving DecidableEq, Repr

/-- `interface ModelState { state; progress }`.  `progress` is a JS number,
modelled as `Int`. -/
structure ModelState where
  state : LState
  progress : Int
deriving DecidableEq, Repr

/-- `const MODEL_KEYS: ModelKey[] = ['tiny','base','small','medium','large']`. -/
def MODEL_KEYS : List ModelKey := [.tiny, .base, .small, .medium, .large]

/-- The content of `localStorage` under `STORAGE_KEY`:
* `absent`  — `localStorage.getItem` returns null;
* `corrupt` — a string on which `JSON.parse` throws;
* `parsed`  — a JSON object, modelled by which of the five catalog keys are
  present and the record stored under each (extra unknown fields are ignored
  by every consumer and are not modelled). -/
inductive Storage
| absent
| corrupt
| parsed (entries : ModelKey → Option ModelState)

/-- `defaultState()`: every catalog key maps to
`{ state: 'not-downloaded', progress: 0 }`. -/
def defaultState : ModelKey → ModelState := fun _ => ⟨.notDownloaded, 0⟩

/-- V1 `loadStates` (part_001 lines 36–46): missing key or parse failure
falls back to `defaultState()`; otherwise `{ ...defaultState(), ...parsed }`,
i.e. stored records win over defaults and missing identifiers get the
default.  The V1 comment says "Just merge; do NOT mutate states here". -/
def loadStates (s : Storage) : ModelKey → ModelState :=
  match s with
  | .absent => defaultState
  | .corrupt => defaultState
  | .parsed m => fun k => (m k).getD (defaultState k)

/-- The inline reset of the V0 `loadStates` (part_000 lines 336–343): any
stored record whose state is `'downloading'` is rewritten to
`'not-downloaded'` with progress 0 during the load itself. -/
def resetDownloading (st : ModelState) : ModelState :=
  if st.state = .downloading then ⟨.notDownloaded, 0⟩ else st

/-- V0 `loadStates` (part_000 lines 330–348): like V1 but applies
`resetDownloading` to every present record before merging. -/
def loadStatesV0 (s : Storage) : ModelKey → ModelState :=
  match s with
  | .absent => defaultState
  | .corrupt => defaultState
  | .parsed m => fun k =>
    match m k with
    | none => defaultState k
    | some st => resetDownloading st

/-- `saveStates(states)`: serializes the full five-key record set to
`localStorage` under `STORAGE_KEY`. -/
def saveStates (states : ModelKey → ModelState) : Storage :=
  .parsed (fun k => some (states k))

/-- Mutation of one key of an in-memory record set
(`states[key] = v` / field assignments with the same effect). -/
def updateState (states : ModelKey → ModelState) (k : ModelKey) (v : ModelState) :
    ModelKey → ModelState :=
  fun j => if j = k then v else states j

/-- The per-record body of `normalizeStatesOnStartup` (part_001 lines 56–76):
an interrupted download, or a `'not-downloaded'` record with nonzero
progress, is reset to `'not-downloaded'`/0; a `'downloaded'` record with
progress ≠ 100 is pinned to 100.  The two source `if` blocks are sequential
but act on disjoint states, so they are rendered as `if … else if`. -/
def normalizeRecord (st : ModelState) : ModelState :=
  if (st.state = .downloading ∨ st.state = .notDownloaded) ∧
      (st.progress ≠ 0 ∨ st.state = .downloading) then
    ⟨.notDownloaded, 0⟩
  else if st.state = .downloaded ∧ st.progress ≠ 100 then
    ⟨.downloaded, 100⟩
  else st

/-- `normalizeStatesOnStartup` (part_001 lines 48–84): reads the raw store;
returns on a missing key, swallows parse failures, maps `normalizeRecord`
over the present catalog records, and writes the result back only when the
`changed` flag was set.  The source sets `changed` exactly when a record is
replaced by a different one, i.e. when `normalizeRecord st ≠ st` for some
present key. -/
def normalizeStatesOnStartup (s : Storage) : Storage :=
  match s with
  | .absent => .absent
  | .corrupt => .corrupt
  | .parsed m =>
    if MODEL_KEYS.any (fun k =>
        match m k with
        | none => false
        | some st => decide (normalizeRecord st ≠ st)) then
      .parsed (fun k => (m k).map normalizeRecord)
    else .parsed m

/-- `checkExistingFiles` (part_001 lines 330–348): loads the states, and for
every key claiming `'downloaded'` whose file `models/<key>.bin` is absent on
disk, resets the record to `'not-downloaded'`/0; saves the full repaired set
only when something changed.  `onDisk` is the `exists(filename, …)` oracle
for the fixed disk contents. -/
def checkExistingFiles (onDisk : ModelKey → Bool) (s : Storage) : Storage :=
  let states := loadStates s
  let repaired : ModelKey → ModelState := fun k =>
    if (states k).state = .downloaded then
      if onDisk k = false then ⟨.notDownloaded, 0⟩ else states k
    else states k
  if MODEL_KEYS.any (fun k =>
      decide ((states k).state = .downloaded) && !(onDisk k)) then
    saveStates repaired
  else s

/-- The V1 startup repair pass (part_001 lines 353–357): the DOMContentLoaded
handler runs `normalizeStatesOnStartup()` and then `checkExistingFiles()`. -/
def startupPass (onDisk : ModelKey → Bool) (s : Storage) : Storage :=
  checkExistingFiles onDisk (normalizeStatesOnStartup s)

/-- `Math.round((receivedLength / totalLength) * 100)` for byte counts
`received` and `total`, computed exactly: `round(x) = floor(x + 1/2)` for the
non-negative arguments that arise here, so the percent is
`⌊(200·received + total) / (2·total)⌋`.  (`Nat` division by `2 * 0` yields 0,
but the loop only computes a percent when `0 < total`.) -/
def jsRoundPercent (received total : Nat) : Int :=
  ((200 * received + total) / (2 * total) : Nat)

/-- Observable state of the runtime surrounding the manager:
* `storage`     — the `localStorage` slot under `STORAGE_KEY`;
* `controllers` — which keys currently have an entry in the module-level
  `abortControllers` record;
* `disk`        — whether `models/<key>.bin` exists for each key. -/
structure World where
  storage : Storage
  controllers : ModelKey → Bool
  disk : ModelKey → Bool

/-- One event observed by the download loop at a chunk boundary:
* `chunk size flush` — `reader.read()` yields `size` bytes; `flush` tells
  whether the V1 30 ms render throttle (`Date.now() - lastRenderTime > 30`)
  lets `saveStates` run for this chunk (V0 saves on every percent change and
  ignores the flag);
* `cancel` — `cancelDownload` for this key runs its synchronous part (abort
  the controller and persist `'not-downloaded'`/0) at this boundary. -/
inductive LoopEv
| chunk (size : Nat) (flush : Bool)
| cancel
deriving DecidableEq

/-- Result of `await fetch(MODEL_URLS[key], …)`:
* `throwNet`   — the promise rejects with a non-abort error;
* `throwAbort` — it rejects with an `AbortError`;
* `resp ok hasBody totalLength` — a response with `response.ok = ok`, a
  present (`hasBody = true`) or missing body, and a `content-length` header
  parsing to `totalLength` (0 when the header is absent). -/
inductive FetchResult
| throwNet
| throwAbort
| resp (ok : Bool) (hasBody : Bool) (totalLength : Nat)
deriving DecidableEq

/-- How the response stream terminates after the scripted chunks:
the final `reader.read()` resolves `done`, rejects with a non-abort
network/transport error, or rejects with an `AbortError`. -/
inductive StreamEnd
| done
| netError
| abortErr
deriving DecidableEq

/-- A script fixing all behaviour external to one `startDownload` call:
whether `mkdir` succeeds, the fetch result, the chunk-boundary events, and
how the stream ends.  Disk-write failures surface like a `netError` ending at
the previous chunk boundary. -/
structure Script where
  mkdirOk : Bool
  fetch : FetchResult
  events : List LoopEv
  ending : StreamEnd

/-- Classification of how a `startDownload` call returned:
`guardNoop` — the early `if (states[key].state === 'downloading') return`;
`completed` — the success path persisted `'downloaded'`/100;
`failed`    — the non-abort `catch` branch ran;
`aborted`   — an `AbortError` was caught and swallowed;
`staleExit` — V1 only: a persisted-state check saw a non-`'downloading'`
record and the function returned silently without further writes. -/
inductive Outcome
| guardNoop
| completed
| failed
| aborted
| staleExit
deriving DecidableEq, Repr

/-- State threaded through the download loop, plus its exit information:
bytes received, the in-memory `states[key].progress`, the storage as left by
the loop's saves, the list of progress values written to the in-memory record
(one per percent change), and whether the loop exited early (V1: the
persisted-state check broke out; V0: an `AbortError` rejection). -/
structure LoopOut where
  received : Nat
  progress : Int
  storage : Storage
  trace : List Int
  exitEarly : Bool

/-- The storage write of `cancelDownload` (part_001 lines 294–301): load the
current states, overwrite this key with `'not-downloaded'`/0, save. -/
def cancelSave (k : ModelKey) (s : Storage) : Storage :=
  saveStates (updateState (loadStates s) k ⟨.notDownloaded, 0⟩)

/-- The storage write of the V0 `cancelDownload` (part_000 lines 527–530);
identical to V1 except that V0's `loadStates` applies the inline reset. -/
def cancelSaveV0 (k : ModelKey) (s : Storage) : Storage :=
  saveStates (updateState (loadStatesV0 s) k ⟨.notDownloaded, 0⟩)

/-- The V1 `while (true)` download loop (part_001 lines 223–253).  Each
iteration first re-loads the persisted states and breaks if this key is no
longer `'downloading'`; then reads a chunk, accumulates `receivedLength`,
and when the total is known computes the rounded percent, writes it to the
in-memory record when it changed, and saves/renders when the throttle allows.
The list argument ends at the terminal `reader.read()`; the pre-read check
also runs before that terminal read (the `[]` case).  A `cancel` event
replaces the storage by `cancelSave` between two iterations. -/
def downloadLoop (k : ModelKey) (base : ModelKey → ModelState) (total : Nat) :
    List LoopEv → Nat → Int → Storage → List Int → LoopOut
  | [], r, p, st, tr =>
    if (loadStates st k).state ≠ .downloading then ⟨r, p, st, tr, true⟩
    else ⟨r, p, st, tr, false⟩
  | .cancel :: rest, r, p, st, tr =>
    downloadLoop k base total rest r p (cancelSave k st) tr
  | .chunk c f :: rest, r, p, st, tr =>
    if (loadStates st k).state ≠ .downloading then ⟨r, p, st, tr, true⟩
    else if 0 < total then
      if jsRoundPercent (r + c) total ≠ p then
        downloadLoop k base total rest (r + c) (jsRoundPercent (r + c) total)
          (if f then
            saveStates (updateState base k ⟨.downloading, jsRoundPercent (r + c) total⟩)
          else st)
          (tr ++ [jsRoundPercent (r + c) total])
      else downloadLoop k base total rest (r + c) p st tr
    else downloadLoop k base total rest (r + c) p st tr

/-- The V0 `while (true)` download loop (part_000 lines 476–494): no
persisted-state check, and a save/render on every percent change.  After a
`cancel` event the aborted controller makes the next `reader.read()` reject
with an `AbortError`, so the loop exits early with the cancelled storage. -/
def downloadLoopV0 (k : ModelKey) (base : ModelKey → ModelState) (total : Nat) :
    List LoopEv → Nat → Int → Storage → List Int → LoopOut
  | [], r, p, st, tr => ⟨r, p, st, tr, false⟩
  | .cancel :: _, r, p, st, tr => ⟨r, p, cancelSaveV0 k st, tr, true⟩
  | .chunk c _ :: rest, r, p, st, tr =>
    if 0 < total then
      if jsRoundPercent (r + c) total ≠ p then
        downloadLoopV0 k base total rest (r + c) (jsRoundPercent (r + c) total)
          (saveStates (updateState base k ⟨.downloading, jsRoundPercent (r + c) total⟩))
          (tr ++ [jsRoundPercent (r + c) total])
      else downloadLoopV0 k base total rest (r + c) p st tr
    else downloadLoopV0 k base total rest (r + c) p st tr

/-- V1 `startDownload` (part_001 lines 180–286).  Returns the final world,
the outcome, and the trace of progress values written during the loop.
The guard returns before the `AbortController` is registered; every other
path registers the controller and the `finally` block removes it again, so
the final `controllers` map has this key cleared.  The `catch` branch for a
non-abort error sets only `states[key].state = 'not-downloaded'` on the local
snapshot — the snapshot's current progress is persisted along with it.  The
success path saves `progress = 100` and then `'downloaded'`/100; only the
final save is retained here.  An `AbortError` returns without touching
storage. -/
def startDownload (k : ModelKey) (sc : Script) (w : World) :
    World × Outcome × List Int :=
  let states0 := loadStates w.storage
  if (states0 k).state = .downloading then (w, .guardNoop, [])
  else
    let ctrlsDone : ModelKey → Bool := fun j => if j = k then false else w.controllers j
    let storage1 := saveStates (updateState states0 k ⟨.downloading, 0⟩)
    let failAt : Int → Storage := fun p =>
      saveStates (updateState states0 k ⟨.notDownloaded, p⟩)
    if sc.mkdirOk = false then
      ({ storage := failAt 0, controllers := ctrlsDone, disk := w.disk }, .failed, [])
    else
      match sc.fetch with
      | .throwNet =>
        ({ storage := failAt 0, controllers := ctrlsDone, disk := w.disk }, .failed, [])
      | .throwAbort =>
        ({ storage := storage1, controllers := ctrlsDone, disk := w.disk }, .aborted, [])
      | .resp ok hasBody total =>
        if ok = false ∨ hasBody = false then
          ({ storage := failAt 0, controllers := ctrlsDone, disk := w.disk }, .failed, [])
        else
          let disk1 : ModelKey → Bool := fun j => if j = k then true else w.disk j
          let out := downloadLoop k states0 total sc.events 0 0 storage1 []
          if out.exitEarly then
            ({ storage := out.storage, controllers := ctrlsDone, disk := disk1 },
              .staleExit, out.trace)
          else
            match sc.ending with
            | .netError =>
              ({ storage := failAt out.progress, controllers := ctrlsDone, disk := disk1 },
                .failed, out.trace)
            | .abortErr =>
              ({ storage := out.storage, controllers := ctrlsDone, disk := disk1 },
                .aborted, out.trace)
            | .done =>
              if (loadStates out.storage k).state ≠ .downloading then
                ({ storage := out.storage, controllers := ctrlsDone, disk := disk1 },
                  .staleExit, out.trace)
              else
                ({ storage := saveStates (updateState states0 k ⟨.downloaded, 100⟩),
                   controllers := ctrlsDone, disk := disk1 }, .completed, out.trace)

/-- V0 `startDownload` (part_000 lines 434–518): same structure as V1 minus
the persisted-state checks, with `loadStatesV0` as the reader and the V0
loop.  The success path saves `'downloaded'`/100 with no re-check. -/
def startDownloadV0 (k : ModelKey) (sc : Script) (w : World) :
    World × Outcome × List Int :=
  let states0 := loadStatesV0 w.storage
  if (states0 k).state = .downloading then (w, .guardNoop, [])
  else
    let ctrlsDone : ModelKey → Bool := fun j => if j = k then false else w.controllers j
    let storage1 := saveStates (updateState states0 k ⟨.downloading, 0⟩)
    let failAt : Int → Storage := fun p =>
      saveStates (updateState states0 k ⟨.notDownloaded, p⟩)
    if sc.mkdirOk = false then
      ({ storage := failAt 0, controllers := ctrlsDone, disk := w.disk }, .failed, [])
    else
      match sc.fetch with
      | .throwNet =>
        ({ storage := failAt 0, controllers := ctrlsDone, disk := w.disk }, .failed, [])
      | .throwAbort =>
        ({ storage := storage1, controllers := ctrlsDone, disk := w.disk }, .aborted, [])
      | .resp ok hasBody total =>
        if ok = false ∨ hasBody = false then
          ({ storage := failAt 0, controllers := ctrlsDone, disk := w.disk }, .failed, [])
        else
          let disk1 : ModelKey → Bool := fun j => if j = k then true else w.disk j
          let out := downloadLoopV0 k states0 total sc.events 0 0 storage1 []
          if out.exitEarly then
            ({ storage := out.storage, controllers := ctrlsDone, disk := disk1 },
              .aborted, out.trace)
          else
            match sc.ending with
            | .netError =>
              ({ storage := failAt out.progress, controllers := ctrlsDone, disk := disk1 },
                .failed, out.trace)
            | .abortErr =>
              ({ storage := out.storage, controllers := ctrlsDone, disk := disk1 },
                .aborted, out.trace)
            | .done =>
              ({ storage := saveStates (updateState states0 k ⟨.downloaded, 100⟩),
                 controllers := ctrlsDone, disk := disk1 }, .completed, out.trace)

/-- V1 `cancelDownload` (part_001 lines 288–312): abort and drop the
controller if present, force-reset this key's record to `'not-downloaded'`/0
and save, then best-effort remove `models/<key>.bin` — a removal failure
(`removeOk = false`) is swallowed by the empty `catch`. -/
def cancelDownload (k : ModelKey) (removeOk : Bool) (w : World) : World :=
  let w1 : World := { w with controllers := fun j => if j = k then false else w.controllers j }
  let w2 : World := { w1 with storage := cancelSave k w1.storage }
  if removeOk then { w2 with disk := fun j => if j = k then false else w2.disk j } else w2

/-- V0 `cancelDownload` (part_000 lines 520–541): identical to V1 up to the
`loadStates` flavour used by `cancelSaveV0`. -/
def cancelDownloadV0 (k : ModelKey) (removeOk : Bool) (w : World) : World :=
  let w1 : World := { w with controllers := fun j => if j = k then false else w.controllers j }
  let w2 : World := { w1 with storage := cancelSaveV0 k w1.storage }
  if removeOk then { w2 with disk := fun j => if j = k then false else w2.disk j } else w2

/-- V1 `deleteDownload` (part_001 lines 314–328): `remove` runs first inside
the `try`; only when it succeeds does the state reversion run.  When `remove`
throws (`removeOk = false`) the `catch` only logs — nothing changes. -/
def deleteDownload (k : ModelKey) (removeOk : Bool) (w : World) : World :=
  if removeOk then
    let w1 : World := { w with disk := fun j => if j = k then false else w.disk j }
    { w1 with storage :=
        saveStates (updateState (loadStates w1.storage) k ⟨.notDownloaded, 0⟩) }
  else w

/-- V0 `deleteDownload` (part_000 lines 543–557): identical to V1 up to the
`loadStates` flavour. -/
def deleteDownloadV0 (k : ModelKey) (removeOk : Bool) (w : World) : World :=
  if removeOk then
    let w1 : World := { w with disk := fun j => if j = k then false else w.disk j }
    { w1 with storage :=
        saveStates (updateState (loadStatesV0 w1.storage) k ⟨.notDownloaded, 0⟩) }
  else w

/-- Total number of bytes delivered by the chunk events of a script. -/
def evChunkSum : List LoopEv → Nat
  | [] => 0
  | .chunk c _ :: rest => c + evChunkSum rest
  | .cancel :: rest => evChunkSum rest

/-- A record in one of the two settled shapes the startup repair produces:
`'not-downloaded'`/0 or `'downloaded'`/100. -/
def Settled (st : ModelState) : Prop :=
  st = ⟨.notDownloaded, 0⟩ ∨ st = ⟨.downloaded, 100⟩

/-- A fresh world: empty storage, no registered controllers, empty disk. -/
def wEmpty : World := ⟨.absent, fun _ => false, fun _ => false⟩

/-- A persisted store in which only `base` is present, recorded as an
in-flight download at 50%. -/
def entriesBaseDownloading : ModelKey → Option ModelState :=
  fun k => if k = .base then some ⟨.downloading, 50⟩ else none

/-- World whose store records `base` as `'downloading'`/50. -/
def wBaseDownloading : World :=
  ⟨.parsed entriesBaseDownloading, fun _ => false, fun _ => false⟩

/-- World whose store records `base` as `'downloaded'`/100 with the file on
disk. -/
def wBaseDownloaded : World :=
  ⟨.parsed (fun k => if k = .base then some ⟨.downloaded, 100⟩ else none),
    fun _ => false, fun k => k = .base⟩

/-- Script: declared total 100 bytes, one 50-byte chunk, then the stream
fails with a non-abort transport error. -/
def scMidFail : Script := ⟨true, .resp true true 100, [.chunk 50 true], .netError⟩

/-- Script: declared total 1 byte, but the body delivers a 2-byte chunk
before failing — the body exceeds the `content-length` header. -/
def scOverrun : Script := ⟨true, .resp true true 1, [.chunk 2 true], .netError⟩

/-- Script: declared total 10 bytes, one 10-byte chunk, stream completes. -/
def scComplete : Script := ⟨true, .resp true true 10, [.chunk 10 true], .done⟩

/-- Script: a 30-byte chunk of a 100-byte body, then `cancelDownload` runs at
the next chunk boundary and the aborted stream ends with `AbortError`. -/
def scCancelled : Script :=
  ⟨true, .resp true true 100, [.chunk 30 true, .cancel], .abortErr⟩

end TranscribeAudio

namespace TranscribeAudio

theorem mem_MODEL_KEYS (k : ModelKey) : k ∈ MODEL_KEYS := by
  cases k <;> decide

theorem loadStates_saveStates (f : ModelKey → ModelState) (k : ModelKey) :
    loadStates (saveStates f) k = f k := rfl

theorem loadStatesV0_saveStates (f : ModelKey → ModelState) (k : ModelKey) :
    loadStatesV0 (saveStates f) k = resetDownloading (f k) := rfl

theorem updateState_self (f : ModelKey → ModelState) (k : ModelKey) (v : ModelState) :
    updateState f k v k = v := by simp [updateState]

theorem cancelSave_self (k : ModelKey) (s : Storage) :
    loadStates (cancelSave k s) k = ⟨.notDownloaded, 0⟩ := by
  simp [cancelSave, loadStates_saveStates, updateState_self]

theorem cancelSaveV0_self (k : ModelKey) (s : Storage) :
    loadStatesV0 (cancelSaveV0 k s) k = ⟨.notDownloaded, 0⟩ := by
  simp [cancelSaveV0, loadStatesV0_saveStates, updateState_self, resetDownloading]

theorem normalizeRecord_settled (st : ModelState) : Settled (normalizeRecord st) := by
  obtain ⟨s, p⟩ := st
  unfold normalizeRecord Settled
  cases s <;> split_ifs <;> simp_all

theorem settled_fix {st : ModelState} (h : Settled st) : normalizeRecord st = st := by
  rcases h with h | h <;> subst h <;> simp [normalizeRecord]

theorem fix_settled {st : ModelState} (h : normalizeRecord st = st) : Settled st := by
  have := normalizeRecord_settled st
  rwa [h] at this

theorem settled_not_downloading {st : ModelState} (h : Settled st) :
    st.state ≠ .downloading := by
  rcases h with h | h <;> subst h <;> simp

theorem normalizeRecord_downloading {st : ModelState} (h : st.state = .downloading) :
    normalizeRecord st = ⟨.notDownloaded, 0⟩ := by
  simp [normalizeRecord, h]

theorem jsRoundPercent_nonneg (r t : Nat) : 0 ≤ jsRoundPercent r t :=
  Int.natCast_nonneg _

theorem jsRoundPercent_mono {r1 r2 : Nat} (t : Nat) (h : r1 ≤ r2) :
    jsRoundPercent r1 t ≤ jsRoundPercent r2 t := by
  unfold jsRoundPercent
  exact_mod_cast Nat.div_le_div_right (Nat.add_le_add_right (Nat.mul_le_mul_left _ h) t)

theorem jsRoundPercent_le_100 {r t : Nat} (ht : 0 < t) (h : r ≤ t) :
    jsRoundPercent r t ≤ 100 := by
  unfold jsRoundPercent
  have h2 : (200 * r + t) / (2 * t) < 101 := by
    rw [Nat.div_lt_iff_lt_mul (by omega)]
    omega
  exact_mod_cast Nat.lt_succ_iff.mp h2

theorem jsRoundPercent_zero (t : Nat) : jsRoundPercent 0 t = 0 := by
  unfold jsRoundPercent
  rcases Nat.eq_zero_or_pos t with h | h
  · subst h; rfl
  · have h2 : 200 * 0 + t < 2 * t := by omega
    rw [Nat.div_eq_of_lt h2]
    exact Int.natCast_zero

theorem jsRoundPercent_total_zero (r : Nat) : jsRoundPercent r 0 = 0 := by
  unfold jsRoundPercent
  simp

theorem getLastD_cons_eq (l : List Int) (b d : Int) :
    (b :: l).getLastD d = l.getLastD b := by
  cases l <;> simp [List.getLastD]

theorem getLast?_cons_eq (l : List Int) (b : Int) :
    (b :: l).getLast? = some (l.getLastD b) := by
  cases l <;> simp [List.getLastD, List.getLast?_eq_getLast]

theorem downloadLoop_stopped (k : ModelKey) (base : ModelKey → ModelState) (total : Nat) :
    ∀ (evs : List LoopEv) (r : Nat) (p : Int) (st : Storage) (tr : List Int),
      loadStates st k = ⟨.notDownloaded, 0⟩ →
      loadStates ((downloadLoop k base total evs r p st tr).storage) k = ⟨.notDownloaded, 0⟩ ∧
        (downloadLoop k base total evs r p st tr).exitEarly = true := by
  intro evs
  induction evs with
  | nil => intro r p st tr h; simp [downloadLoop, h]
  | cons e rest ih =>
    intro r p st tr h
    cases e with
    | cancel =>
      simpa [downloadLoop] using ih r p (cancelSave k st) tr (cancelSave_self k st)
    | chunk c f => simp [downloadLoop, h]

theorem downloadLoop_cancel (k : ModelKey) (base : ModelKey → ModelState) (total : Nat) :
    ∀ (evs : List LoopEv) (r : Nat) (p : Int) (st : Storage) (tr : List Int),
      LoopEv.cancel ∈ evs →
      (loadStates st k).state = .downloading →
      loadStates ((downloadLoop k base total evs r p st tr).storage) k = ⟨.notDownloaded, 0⟩ ∧
        (downloadLoop k base total evs r p st tr).exitEarly = true := by
  intro evs
  induction evs with
  | nil => intro r p st tr h _; exact absurd h (List.not_mem_nil _)
  | cons e rest ih =>
    intro r p st tr hmem hdl
    cases e with
    | cancel =>
      simpa [downloadLoop] using
        downloadLoop_stopped k base total rest r p (cancelSave k st) tr (cancelSave_self k st)
    | chunk c f =>
      have hrest : LoopEv.cancel ∈ rest := by
        rcases List.mem_cons.mp hmem with h | h
        · exact absurd h (by simp)
        · exact h
      have hchk : ¬ (loadStates st k).state ≠ .downloading := by simp [hdl]
      simp only [downloadLoop, if_neg hchk]
      split_ifs with h1 h2 h3
      · exact ih (r + c) _ _ _ hrest (by simp [loadStates_saveStates, updateState_self])
      · exact ih (r + c) _ _ _ hrest hdl
      · exact ih (r + c) _ _ _ hrest hdl
      · exact ih (r + c) _ _ _ hrest hdl

theorem downloadLoopV0_cancel (k : ModelKey) (base : ModelKey → ModelState) (total : Nat) :
    ∀ (evs : List LoopEv) (r : Nat) (p : Int) (st : Storage) (tr : List Int),
      LoopEv.cancel ∈ evs →
      loadStatesV0 ((downloadLoopV0 k base total evs r p st tr).storage) k
          = ⟨.notDownloaded, 0⟩ ∧
        (downloadLoopV0 k base total evs r p st tr).exitEarly = true := by
  intro evs
  induction evs with
  | nil => intro r p st tr h; exact absurd h (List.not_mem_nil _)
  | cons e rest ih =>
    intro r p st tr hmem
    cases e with
    | cancel => simp [downloadLoopV0, cancelSaveV0_self]
    | chunk c f =>
      have hrest : LoopEv.cancel ∈ rest := by
        rcases List.mem_cons.mp hmem with h | h
        · exact absurd h (by simp)
        · exact h
      simp only [downloadLoopV0]
      split_ifs with h1 h2
      · exact ih (r + c) _ _ _ hrest
      · exact ih (r + c) _ _ _ hrest
      · exact ih (r + c) _ _ _ hrest

end TranscribeAudio

namespace TranscribeAudio

theorem downloadLoop_trace (k : ModelKey) (base : ModelKey → ModelState) (total : Nat) :
    ∀ (evs : List LoopEv) (r : Nat) (p : Int) (st : Storage) (tr : List Int),
      List.Chain' (· ≤ ·) (0 :: tr) →
      tr.getLastD 0 = p →
      p ≤ jsRoundPercent r total →
      List.Chain' (· ≤ ·) (0 :: (downloadLoop k base total evs r p st tr).trace) ∧
        (downloadLoop k base total evs r p st tr).trace.getLastD 0 =
          (downloadLoop k base total evs r p st tr).progress := by
  intro evs
  induction evs with
  | nil =>
    intro r p st tr hch hlast hle
    unfold downloadLoop
    split_ifs <;> exact ⟨hch, hlast⟩
  | cons e rest ih =>
    intro r p st tr hch hlast hle
    cases e with
    | cancel => exact ih r p (cancelSave k st) tr hch hlast hle
    | chunk c f =>
      simp only [downloadLoop]
      by_cases h0 : (loadStates st k).state ≠ .downloading
      · rw [if_pos h0]; exact ⟨hch, hlast⟩
      · rw [if_neg h0]
        by_cases h1 : 0 < total
        · rw [if_pos h1]
          by_cases h2 : jsRoundPercent (r + c) total ≠ p
          · rw [if_pos h2]
            apply ih
            · rw [show (0 : Int) :: (tr ++ [jsRoundPercent (r + c) total])
                  = (0 :: tr) ++ [jsRoundPercent (r + c) total] by simp]
              rw [List.chain'_append]
              refine ⟨hch, List.chain'_singleton _, ?_⟩
              intro x hx y hy
              rw [getLast?_cons_eq, Option.mem_def, Option.some_inj] at hx
              simp only [List.head?_cons, Option.mem_def, Option.some_inj] at hy
              subst hx; subst hy
              rw [hlast]
              exact le_trans hle (jsRoundPercent_mono total (Nat.le_add_right r c))
            · simp
            · exact le_refl _
          · rw [if_neg h2]
            push_neg at h2
            exact ih _ _ _ _ hch hlast (le_of_eq h2.symm)
        · rw [if_neg h1]
          have ht : total = 0 := by omega
          subst ht
          apply ih _ _ _ _ hch hlast
          rw [jsRoundPercent_total_zero]
          rw [jsRoundPercent_total_zero] at hle
          exact hle

theorem downloadLoopV0_trace (k : ModelKey) (base : ModelKey → ModelState) (total : Nat) :
    ∀ (evs : List LoopEv) (r : Nat) (p : Int) (st : Storage) (tr : List Int),
      List.Chain' (· ≤ ·) (0 :: tr) →
      tr.getLastD 0 = p →
      p ≤ jsRoundPercent r total →
      List.Chain' (· ≤ ·) (0 :: (downloadLoopV0 k base total evs r p st tr).trace) ∧
        (downloadLoopV0 k base total evs r p st tr).trace.getLastD 0 =
          (downloadLoopV0 k base total evs r p st tr).progress := by
  intro evs
  induction evs with
  | nil =>
    intro r p st tr hch hlast hle
    exact ⟨hch, hlast⟩
  | cons e rest ih =>
    intro r p st tr hch hlast hle
    cases e with
    | cancel => exact ⟨hch, hlast⟩
    | chunk c f =>
      simp only [downloadLoopV0]
      by_cases h1 : 0 < total
      · rw [if_pos h1]
        by_cases h2 : jsRoundPercent (r + c) total ≠ p
        · rw [if_pos h2]
          apply ih
          · rw [show (0 : Int) :: (tr ++ [jsRoundPercent (r + c) total])
                = (0 :: tr) ++ [jsRoundPercent (r + c) total] by simp]
            rw [List.chain'_append]
            refine ⟨hch, List.chain'_singleton _, ?_⟩
            intro x hx y hy
            rw [getLast?_cons_eq, Option.mem_def, Option.some_inj] at hx
            simp only [List.head?_cons, Option.mem_def, Option.some_inj] at hy
            subst hx; subst hy
            rw [hlast]
            exact le_trans hle (jsRoundPercent_mono total (Nat.le_add_right r c))
          · simp
          · exact le_refl _
        · rw [if_neg h2]
          push_neg at h2
          exact ih _ _ _ _ hch hlast (le_of_eq h2.symm)
      · rw [if_neg h1]
        have ht : total = 0 := by omega
        subst ht
        apply ih _ _ _ _ hch hlast
        rw [jsRoundPercent_total_zero]
        rw [jsRoundPercent_total_zero] at hle
        exact hle

theorem downloadLoop_nonneg (k : ModelKey) (base : ModelKey → ModelState) (total : Nat) :
    ∀ (evs : List LoopEv) (r : Nat) (p : Int) (st : Storage) (tr : List Int),
      (∀ x ∈ tr, 0 ≤ x) →
      ∀ x ∈ (downloadLoop k base total evs r p st tr).trace, 0 ≤ x := by
  intro evs
  induction evs with
  | nil =>
    intro r p st tr h
    unfold downloadLoop
    split_ifs <;> exact h
  | cons e rest ih =>
    intro r p st tr h
    cases e with
    | cancel => exact ih r p (cancelSave k st) tr h
    | chunk c f =>
      simp only [downloadLoop]
      split_ifs with h0 h1 h2 hf
      · exact h
      · apply ih
        intro x hx
        rcases List.mem_append.mp hx with hx | hx
        · exact h x hx
        · rw [List.mem_singleton.mp hx]
          exact jsRoundPercent_nonneg _ _
      · apply ih
        intro x hx
        rcases List.mem_append.mp hx with hx | hx
        · exact h x hx
        · rw [List.mem_singleton.mp hx]
          exact jsRoundPercent_nonneg _ _
      · exact ih _ _ _ _ h
      · exact ih _ _ _ _ h

theorem downloadLoopV0_nonneg (k : ModelKey) (base : ModelKey → ModelState) (total : Nat) :
    ∀ (evs : List LoopEv) (r : Nat) (p : Int) (st : Storage) (tr : List Int),
      (∀ x ∈ tr, 0 ≤ x) →
      ∀ x ∈ (downloadLoopV0 k base total evs r p st tr).trace, 0 ≤ x := by
  intro evs
  induction evs with
  | nil => intro r p st tr h; exact h
  | cons e rest ih =>
    intro r p st tr h
    cases e with
    | cancel => exact h
    | chunk c f =>
      simp only [downloadLoopV0]
      split_ifs with h1 h2
      · apply ih
        intro x hx
        rcases List.mem_append.mp hx with hx | hx
        · exact h x hx
        · rw [List.mem_singleton.mp hx]
          exact jsRoundPercent_nonneg _ _
      · exact ih _ _ _ _ h
      · exact ih _ _ _ _ h

theorem downloadLoop_le100 (k : ModelKey) (base : ModelKey → ModelState) (total : Nat) :
    ∀ (evs : List LoopEv) (r : Nat) (p : Int) (st : Storage) (tr : List Int),
      r + evChunkSum evs ≤ total →
      (∀ x ∈ tr, x ≤ 100) →
      ∀ x ∈ (downloadLoop k base total evs r p st tr).trace, x ≤ 100 := by
  intro evs
  induction evs with
  | nil =>
    intro r p st tr hsum h
    unfold downloadLoop
    split_ifs <;> exact h
  | cons e rest ih =>
    intro r p st tr hsum h
    cases e with
    | cancel =>
      apply ih r p (cancelSave k st) tr _ h
      simpa [evChunkSum] using hsum
    | chunk c f =>
      have hsum2 : (r + c) + evChunkSum rest ≤ total := by
        simp only [evChunkSum] at hsum
        omega
      simp only [downloadLoop]
      split_ifs with h0 h1 h2 hf
      · exact h
      · apply ih _ _ _ _ hsum2
        intro x hx
        rcases List.mem_append.mp hx with hx | hx
        · exact h x hx
        · rw [List.mem_singleton.mp hx]
          exact jsRoundPercent_le_100 h1 (by omega)
      · apply ih _ _ _ _ hsum2
        intro x hx
        rcases List.mem_append.mp hx with hx | hx
        · exact h x hx
        · rw [List.mem_singleton.mp hx]
          exact jsRoundPercent_le_100 h1 (by omega)
      · exact ih _ _ _ _ hsum2 h
      · exact ih _ _ _ _ hsum2 h

theorem downloadLoopV0_le100 (k : ModelKey) (base : ModelKey → ModelState) (total : Nat) :
    ∀ (evs : List LoopEv) (r : Nat) (p : Int) (st : Storage) (tr : List Int),
      r + evChunkSum evs ≤ total →
      (∀ x ∈ tr, x ≤ 100) →
      ∀ x ∈ (downloadLoopV0 k base total evs r p st tr).trace, x ≤ 100 := by
  intro evs
  induction evs with
  | nil => intro r p st tr hsum h; exact h
  | cons e rest ih =>
    intro r p st tr hsum h
    cases e with
    | cancel => exact h
    | chunk c f =>
      have hsum2 : (r + c) + evChunkSum rest ≤ total := by
        simp only [evChunkSum] at hsum
        omega
      simp only [downloadLoopV0]
      split_ifs with h1 h2
      · apply ih _ _ _ _ hsum2
        intro x hx
        rcases List.mem_append.mp hx with hx | hx
        · exact h x hx
        · rw [List.mem_singleton.mp hx]
          exact jsRoundPercent_le_100 h1 (by omega)
      · exact ih _ _ _ _ hsum2 h
      · exact ih _ _ _ _ hsum2 h

end TranscribeAudio

namespace TranscribeAudio

theorem loadStates_parsed (m : ModelKey → Option ModelState) (k : ModelKey) :
    loadStates (.parsed m) k = (m k).getD ⟨.notDownloaded, 0⟩ := rfl

/-- C1: a persisted record claiming `'downloading'` is reset to
`'not-downloaded'`/0 by the startup normalization — by
`normalizeStatesOnStartup` in the V1 variant, by the inline reset of
`loadStates` in the V0 variant — and in both variants no record claiming
`'downloading'` survives into the loaded view after startup. -/
theorem C1_stale_downloading_reset :
    (∀ (m : ModelKey → Option ModelState) (k : ModelKey) (st : ModelState),
        m k = some st → st.state = .downloading →
        loadStates (normalizeStatesOnStartup (.parsed m)) k = ⟨.notDownloaded, 0⟩) ∧
    (∀ (s : Storage) (k : ModelKey),
        (loadStates (normalizeStatesOnStartup s) k).state ≠ .downloading) ∧
    (∀ (m : ModelKey → Option ModelState) (k : ModelKey) (st : ModelState),
        m k = some st → st.state = .downloading →
        loadStatesV0 (.parsed m) k = ⟨.notDownloaded, 0⟩) ∧
    (∀ (s : Storage) (k : ModelKey),
        (loadStatesV0 s k).state ≠ .downloading) := by
  refine ⟨?_, ?_, ?_, ?_⟩
  · intro m k st hmk hdl
    have hchanged : (MODEL_KEYS.any fun j =>
        match m j with
        | none => false
        | some st => decide (normalizeRecord st ≠ st)) = true := by
      rw [List.any_eq_true]
      refine ⟨k, mem_MODEL_KEYS k, ?_⟩
      simp only [hmk, decide_eq_true_eq]
      rw [normalizeRecord_downloading hdl]
      intro hEq
      rw [← hEq] at hdl
      simp at hdl
    simp only [normalizeStatesOnStartup]
    rw [if_pos hchanged, loadStates_parsed, hmk]
    simp [normalizeRecord_downloading hdl]
  · intro s k
    cases s with
    | absent => simp [normalizeStatesOnStartup, loadStates, defaultState]
    | corrupt => simp [normalizeStatesOnStartup, loadStates, defaultState]
    | parsed m =>
      simp only [normalizeStatesOnStartup]
      split_ifs with hchg
      · rw [loadStates_parsed]
        cases hmk : m k with
        | none => simp
        | some st =>
          simp only [hmk, Option.map_some', Option.getD_some]
          exact settled_not_downloading (normalizeRecord_settled st)
      · rw [List.any_eq_true] at hchg
        push_neg at hchg
        rw [loadStates_parsed]
        cases hmk : m k with
        | none => simp
        | some st =>
          have h2 := hchg k (mem_MODEL_KEYS k)
          simp only [hmk, ne_eq, decide_eq_true_eq, not_not] at h2
          simp only [Option.getD_some]
          exact settled_not_downloading (fix_settled h2)
  · intro m k st hmk hdl
    simp [loadStatesV0, hmk, resetDownloading, hdl]
  · intro s k
    cases s with
    | absent => simp [loadStatesV0, defaultState]
    | corrupt => simp [loadStatesV0, defaultState]
    | parsed m =>
      simp only [loadStatesV0]
      cases hmk : m k with
      | none => simp [defaultState]
      | some st =>
        simp only [resetDownloading]
        split_ifs with h
        · simp
        · exact h

/-- Witness for C1: the store that records `base` as `'downloading'`/50 is
reset to `'not-downloaded'`/0 by both variants. -/
theorem C1_witness :
    loadStates (normalizeStatesOnStartup (.parsed entriesBaseDownloading)) .base
        = ⟨.notDownloaded, 0⟩ ∧
    loadStatesV0 (.parsed entriesBaseDownloading) .base = ⟨.notDownloaded, 0⟩ :=
  ⟨C1_stale_downloading_reset.1 entriesBaseDownloading .base ⟨.downloading, 50⟩ rfl rfl,
   C1_stale_downloading_reset.2.2.1 entriesBaseDownloading .base ⟨.downloading, 50⟩ rfl rfl⟩

end TranscribeAudio

namespace TranscribeAudio

/-- C6: `loadStates` never fails — it is a total function of the stored
content in both variants — and on absent or unparseable storage it returns
exactly the catalog default, `'not-downloaded'`/0 for each of the five
catalog identifiers; on parseable storage it returns the merge of the
default with the stored records. -/
theorem C6_loadStates_total_default :
    MODEL_KEYS.length = 5 ∧
    (∀ k : ModelKey, loadStates Storage.absent k = ⟨.notDownloaded, 0⟩) ∧
    (∀ k : ModelKey, loadStates Storage.corrupt k = ⟨.notDownloaded, 0⟩) ∧
    (∀ (m : ModelKey → Option ModelState) (k : ModelKey),
        loadStates (.parsed m) k = (m k).getD ⟨.notDownloaded, 0⟩) ∧
    (∀ k : ModelKey, loadStatesV0 Storage.absent k = ⟨.notDownloaded, 0⟩) ∧
    (∀ k : ModelKey, loadStatesV0 Storage.corrupt k = ⟨.notDownloaded, 0⟩) :=
  ⟨rfl, fun _ => rfl, fun _ => rfl, fun _ _ => rfl, fun _ => rfl, fun _ => rfl⟩

/-- C9: when some catalog identifiers are missing from the persisted
mapping, V1 `loadStates` fills each missing identifier with
`'not-downloaded'`/0 and keeps each present identifier's stored record
verbatim. -/
theorem C9_merge_fills_missing :
    (∀ (m : ModelKey → Option ModelState) (k : ModelKey),
        m k = none → loadStates (.parsed m) k = ⟨.notDownloaded, 0⟩) ∧
    (∀ (m : ModelKey → Option ModelState) (k : ModelKey) (st : ModelState),
        m k = some st → loadStates (.parsed m) k = st) := by
  constructor
  · intro m k h
    rw [loadStates_parsed, h]
    rfl
  · intro m k st h
    rw [loadStates_parsed, h]
    rfl

/-- Witness for C9: in the store that only mentions `base`, the missing
`tiny` loads as the default and the present `base` record is kept. -/
theorem C9_witness :
    loadStates (.parsed entriesBaseDownloading) .tiny = ⟨.notDownloaded, 0⟩ ∧
    loadStates (.parsed entriesBaseDownloading) .base = ⟨.downloading, 50⟩ :=
  ⟨C9_merge_fills_missing.1 entriesBaseDownloading .tiny rfl,
   C9_merge_fills_missing.2 entriesBaseDownloading .base ⟨.downloading, 50⟩ rfl⟩

/-- C10: `cancelDownload` never inspects the current lifecycle state: in
both variants, for every world — whatever the record holds, including
`'downloaded'` — it overwrites the record with `'not-downloaded'`/0 and
attempts to remove `models/<key>.bin` (the file disappears when removal
succeeds; a removal failure leaves the disk untouched and is swallowed). -/
theorem C10_cancel_ignores_state :
    ∀ (w : World) (k : ModelKey),
      loadStates ((cancelDownload k true w).storage) k = ⟨.notDownloaded, 0⟩ ∧
      (cancelDownload k true w).disk k = false ∧
      loadStates ((cancelDownload k false w).storage) k = ⟨.notDownloaded, 0⟩ ∧
      (cancelDownload k false w).disk = w.disk ∧
      loadStatesV0 ((cancelDownloadV0 k true w).storage) k = ⟨.notDownloaded, 0⟩ ∧
      (cancelDownloadV0 k true w).disk k = false ∧
      loadStatesV0 ((cancelDownloadV0 k false w).storage) k = ⟨.notDownloaded, 0⟩ ∧
      (cancelDownloadV0 k false w).disk = w.disk := by
  intro w k
  refine ⟨?_, ?_, ?_, ?_, ?_, ?_, ?_, ?_⟩ <;>
    simp [cancelDownload, cancelDownloadV0, cancelSave_self, cancelSaveV0_self]

/-- C5 (counterexample): `deleteDownload` on the world whose store records
`base` as `'downloaded'`/100 with the file on disk, when the file removal
fails, leaves the record `'downloaded'` — it is not reverted to
`'not-downloaded'`/0 as the claim states, in either variant. -/
theorem C5_counterexample :
    (loadStates ((deleteDownload .base false wBaseDownloaded).storage) .base).state
        = .downloaded ∧
    (loadStatesV0 ((deleteDownloadV0 .base false wBaseDownloaded).storage) .base).state
        = .downloaded := ⟨rfl, rfl⟩

/-- C5 (amended): `deleteDownload` reverts the record to
`'not-downloaded'`/0 and removes the file only when the removal succeeds;
when removal fails the error is swallowed (no crash, the function returns
normally) but nothing is changed — the record keeps its previous state. -/
theorem C5_delete_revert_on_success :
    ∀ (w : World) (k : ModelKey),
      loadStates ((deleteDownload k true w).storage) k = ⟨.notDownloaded, 0⟩ ∧
      (deleteDownload k true w).disk k = false ∧
      deleteDownload k false w = w ∧
      loadStatesV0 ((deleteDownloadV0 k true w).storage) k = ⟨.notDownloaded, 0⟩ ∧
      (deleteDownloadV0 k true w).disk k = false ∧
      deleteDownloadV0 k false w = w := by
  intro w k
  refine ⟨?_, ?_, rfl, ?_, ?_, rfl⟩ <;>
    simp [deleteDownload, deleteDownloadV0, loadStates_saveStates,
      loadStatesV0_saveStates, updateState_self, resetDownloading]

end TranscribeAudio

namespace TranscribeAudio

/-- C2: in the V1 variant, when the loaded record of an identifier is
`'downloading'`, `startDownload` returns immediately — no controller is
registered, nothing is persisted, no transfer starts, the world is returned
unchanged.  In the V0 variant this guard is defeated by its own
`loadStates`: the evaluation below shows that on a store whose raw record
for `base` is `'downloading'`/50, a second `startDownload` call is NOT a
no-op — it runs a full second transfer to completion, because V0's
`loadStates` rewrites `'downloading'` to `'not-downloaded'` on every load,
so the guard never sees `'downloading'`. -/
theorem C2_no_double_download :
    (∀ (w : World) (k : ModelKey) (sc : Script),
        (loadStates w.storage k).state = .downloading →
        startDownload k sc w = (w, .guardNoop, [])) ∧
    (loadStatesV0 wBaseDownloading.storage .base).state = .notDownloaded ∧
    (startDownloadV0 .base scComplete wBaseDownloading).2.1 = .completed ∧
    loadStatesV0 ((startDownloadV0 .base scComplete wBaseDownloading).1.storage) .base
        = ⟨.downloaded, 100⟩ := by
  refine ⟨?_, rfl, rfl, rfl⟩
  intro w k sc h
  simp only [startDownload, if_pos h]

/-- Witness for C2: on the store recording `base` as `'downloading'`/50, the
V1 `startDownload` is a no-op. -/
theorem C2_witness :
    startDownload .base scComplete wBaseDownloading
        = (wBaseDownloading, .guardNoop, []) :=
  C2_no_double_download.1 wBaseDownloading .base scComplete rfl

end TranscribeAudio

namespace TranscribeAudio

theorem startDownload_trace_shape (k : ModelKey) (sc : Script) (w : World) :
    (startDownload k sc w).2.2 = [] ∨
    ∃ ok body total, sc.fetch = .resp ok body total ∧
      (startDownload k sc w).2.2 =
        (downloadLoop k (loadStates w.storage) total sc.events 0 0
          (saveStates (updateState (loadStates w.storage) k ⟨.downloading, 0⟩)) []).trace := by
  obtain ⟨mk, ft, evs, en⟩ := sc
  by_cases hg : (loadStates w.storage k).state = .downloading
  · left; simp [startDownload, hg]
  · cases mk with
    | false => left; simp [startDownload, hg]
    | true =>
      cases ft with
      | throwNet => left; simp [startDownload, hg]
      | throwAbort => left; simp [startDownload, hg]
      | resp ok body total =>
        by_cases hok : ok = false ∨ body = false
        · left; simp [startDownload, hg, hok]
        · right
          refine ⟨ok, body, total, rfl, ?_⟩
          simp only [startDownload, if_neg hg, if_neg hok]
          norm_num
          split_ifs <;> cases en <;> simp

theorem startDownloadV0_trace_shape (k : ModelKey) (sc : Script) (w : World) :
    (startDownloadV0 k sc w).2.2 = [] ∨
    ∃ ok body total, sc.fetch = .resp ok body total ∧
      (startDownloadV0 k sc w).2.2 =
        (downloadLoopV0 k (loadStatesV0 w.storage) total sc.events 0 0
          (saveStates (updateState (loadStatesV0 w.storage) k ⟨.downloading, 0⟩)) []).trace := by
  obtain ⟨mk, ft, evs, en⟩ := sc
  by_cases hg : (loadStatesV0 w.storage k).state = .downloading
  · left; simp [startDownloadV0, hg]
  · cases mk with
    | false => left; simp [startDownloadV0, hg]
    | true =>
      cases ft with
      | throwNet => left; simp [startDownloadV0, hg]
      | throwAbort => left; simp [startDownloadV0, hg]
      | resp ok body total =>
        by_cases hok : ok = false ∨ body = false
        · left; simp [startDownloadV0, hg, hok]
        · right
          refine ⟨ok, body, total, rfl, ?_⟩
          simp only [startDownloadV0, if_neg hg, if_neg hok]
          norm_num
          split_ifs <;> cases en <;> simp

end TranscribeAudio

namespace TranscribeAudio

/-- C8 (counterexample): when the body delivers more bytes than the declared
`content-length` (total 1 byte, one 2-byte chunk), the computed percent is
`round(2/1·100) = 200`; it is written to the record and — the stream then
failing — persisted, so the stored `progress` is 200, outside `[0,100]`. -/
theorem C8_counterexample :
    (startDownload .base scOverrun wEmpty).2.2 = [200] ∧
    loadStates ((startDownload .base scOverrun wEmpty).1.storage) .base
        = ⟨.notDownloaded, 200⟩ ∧
    ¬ ((200 : Int) ≤ 100) := ⟨rfl, rfl, by decide⟩

/-- C8 (amended): within a single attempt, in both variants, the sequence of
progress values written to the record is monotonically non-decreasing
starting from the initial 0, and every written value is non-negative; every
value is moreover at most 100 provided the bytes received do not exceed the
declared total (when the body overruns the declared `content-length`, the
percent exceeds 100, as the counterexample shows). -/
theorem C8_progress_monotone :
    (∀ (k : ModelKey) (sc : Script) (w : World),
        List.Chain' (· ≤ ·) ((0 : Int) :: (startDownload k sc w).2.2)) ∧
    (∀ (k : ModelKey) (sc : Script) (w : World),
        ∀ x ∈ (startDownload k sc w).2.2, 0 ≤ x) ∧
    (∀ (k : ModelKey) (sc : Script) (w : World) (ok body : Bool) (total : Nat),
        sc.fetch = .resp ok body total →
        evChunkSum sc.events ≤ total →
        ∀ x ∈ (startDownload k sc w).2.2, x ≤ 100) ∧
    (∀ (k : ModelKey) (sc : Script) (w : World),
        List.Chain' (· ≤ ·) ((0 : Int) :: (startDownloadV0 k sc w).2.2)) ∧
    (∀ (k : ModelKey) (sc : Script) (w : World),
        ∀ x ∈ (startDownloadV0 k sc w).2.2, 0 ≤ x) ∧
    (∀ (k : ModelKey) (sc : Script) (w : World) (ok body : Bool) (total : Nat),
        sc.fetch = .resp ok body total →
        evChunkSum sc.events ≤ total →
        ∀ x ∈ (startDownloadV0 k sc w).2.2, x ≤ 100) := by
  refine ⟨?_, ?_, ?_, ?_, ?_, ?_⟩
  · intro k sc w
    rcases startDownload_trace_shape k sc w with h | ⟨ok, body, total, _, h⟩
    · rw [h]; exact List.chain'_singleton _
    · rw [h]
      exact (downloadLoop_trace k (loadStates w.storage) total sc.events 0 0 _ []
        (List.chain'_singleton _) rfl (by rw [jsRoundPercent_zero])).1
  · intro k sc w
    rcases startDownload_trace_shape k sc w with h | ⟨ok, body, total, _, h⟩
    · rw [h]; intro x hx; exact absurd hx (List.not_mem_nil x)
    · rw [h]
      exact downloadLoop_nonneg k (loadStates w.storage) total sc.events 0 0 _ []
        (by intro x hx; exact absurd hx (List.not_mem_nil x))
  · intro k sc w ok body total hf hsum
    rcases startDownload_trace_shape k sc w with h | ⟨ok2, body2, total2, hf2, h⟩
    · rw [h]; intro x hx; exact absurd hx (List.not_mem_nil x)
    · rw [hf] at hf2
      have h3 : total2 = total := by cases hf2; rfl
      rw [h3] at h
      rw [h]
      exact downloadLoop_le100 k (loadStates w.storage) total sc.events 0 0 _ []
        (by simpa using hsum)
        (by intro x hx; exact absurd hx (List.not_mem_nil x))
  · intro k sc w
    rcases startDownloadV0_trace_shape k sc w with h | ⟨ok, body, total, _, h⟩
    · rw [h]; exact List.chain'_singleton _
    · rw [h]
      exact (downloadLoopV0_trace k (loadStatesV0 w.storage) total sc.events 0 0 _ []
        (List.chain'_singleton _) rfl (by rw [jsRoundPercent_zero])).1
  · intro k sc w
    rcases startDownloadV0_trace_shape k sc w with h | ⟨ok, body, total, _, h⟩
    · rw [h]; intro x hx; exact absurd hx (List.not_mem_nil x)
    · rw [h]
      exact downloadLoopV0_nonneg k (loadStatesV0 w.storage) total sc.events 0 0 _ []
        (by intro x hx; exact absurd hx (List.not_mem_nil x))
  · intro k sc w ok body total hf hsum
    rcases startDownloadV0_trace_shape k sc w with h | ⟨ok2, body2, total2, hf2, h⟩
    · rw [h]; intro x hx; exact absurd hx (List.not_mem_nil x)
    · rw [hf] at hf2
      have h3 : total2 = total := by cases hf2; rfl
      rw [h3] at h
      rw [h]
      exact downloadLoopV0_le100 k (loadStatesV0 w.storage) total sc.events 0 0 _ []
        (by simpa using hsum)
        (by intro x hx; exact absurd hx (List.not_mem_nil x))

/-- Witness for C8: the complete 10-byte download (one chunk, declared total
10) has a monotone trace bounded by 100. -/
theorem C8_witness :
    List.Chain' (· ≤ ·) ((0 : Int) :: (startDownload .base scComplete wEmpty).2.2) ∧
    (∀ x ∈ (startDownload .base scComplete wEmpty).2.2, x ≤ 100) :=
  ⟨C8_progress_monotone.1 .base scComplete wEmpty,
   C8_progress_monotone.2.2.1 .base scComplete wEmpty true true 10 rfl (by decide)⟩

end TranscribeAudio

namespace TranscribeAudio

/-- C4 (counterexample): a download of declared total 100 that fails with a
transport error after one 50-byte chunk takes the non-abort `catch` branch,
which persists `'not-downloaded'` together with the snapshot's current
progress — 50, not 0.  The claim that the record ends at progress 0 is false
for mid-stream failures. -/
theorem C4_counterexample :
    (startDownload .base scMidFail wEmpty).2.1 = .failed ∧
    loadStates ((startDownload .base scMidFail wEmpty).1.storage) .base
        = ⟨.notDownloaded, 50⟩ ∧
    (50 : Int) ≠ 0 := ⟨rfl, rfl, by decide⟩

/-- C4 (amended): every attempt that ends in the Failed outcome (the
non-abort `catch` branch) persists `'not-downloaded'` with progress equal to
the last progress value written during the attempt — which is 0 exactly when
the failure struck before any progress update (mkdir/fetch error, non-ok
response, missing body, or failure before the first percent change), and the
last computed percent otherwise.  Holds for both variants. -/
theorem C4_failed_resets_state :
    (∀ (k : ModelKey) (sc : Script) (w : World),
        (startDownload k sc w).2.1 = .failed →
        loadStates ((startDownload k sc w).1.storage) k
            = ⟨.notDownloaded, (startDownload k sc w).2.2.getLastD 0⟩) ∧
    (∀ (k : ModelKey) (sc : Script) (w : World),
        (startDownloadV0 k sc w).2.1 = .failed →
        loadStatesV0 ((startDownloadV0 k sc w).1.storage) k
            = ⟨.notDownloaded, (startDownloadV0 k sc w).2.2.getLastD 0⟩) := by
  constructor
  · intro k sc w hfail
    obtain ⟨mk, ft, evs, en⟩ := sc
    by_cases hg : (loadStates w.storage k).state = .downloading
    · simp only [startDownload, if_pos hg] at hfail
      simp at hfail
    · simp only [startDownload, if_neg hg] at hfail ⊢
      cases mk with
      | false =>
        norm_num at hfail ⊢
        simp [loadStates_saveStates, updateState_self]
      | true =>
        norm_num at hfail ⊢
        cases ft with
        | throwNet => simp [loadStates_saveStates, updateState_self]
        | throwAbort => simp at hfail
        | resp ok body total =>
          by_cases hok : ok = false ∨ body = false
          · simp only [if_pos hok] at hfail ⊢
            simp [loadStates_saveStates, updateState_self]
          · simp only [if_neg hok] at hfail ⊢
            set out := downloadLoop k (loadStates w.storage) total evs 0 0
              (saveStates (updateState (loadStates w.storage) k ⟨.downloading, 0⟩)) []
              with hout
            by_cases hex : out.exitEarly = true
            · simp only [hex] at hfail
              simp at hfail
            · simp only [Bool.not_eq_true] at hex
              simp only [hex] at hfail ⊢
              cases en with
              | netError =>
                have htr := (downloadLoop_trace k (loadStates w.storage) total evs 0 0
                  (saveStates (updateState (loadStates w.storage) k ⟨.downloading, 0⟩)) []
                  (List.chain'_singleton _) rfl (by rw [jsRoundPercent_zero])).2
                rw [← hout] at htr
                rw [List.getLastD_eq_getLast?] at htr
                simp [loadStates_saveStates, updateState_self, htr]
              | abortErr => simp at hfail
              | done =>
                by_cases hd : (loadStates out.storage k).state = .downloading <;>
                  simp [hd] at hfail
  · intro k sc w hfail
    obtain ⟨mk, ft, evs, en⟩ := sc
    by_cases hg : (loadStatesV0 w.storage k).state = .downloading
    · simp only [startDownloadV0, if_pos hg] at hfail
      simp at hfail
    · simp only [startDownloadV0, if_neg hg] at hfail ⊢
      cases mk with
      | false =>
        norm_num at hfail ⊢
        simp [loadStatesV0_saveStates, updateState_self, resetDownloading]
      | true =>
        norm_num at hfail ⊢
        cases ft with
        | throwNet => simp [loadStatesV0_saveStates, updateState_self, resetDownloading]
        | throwAbort => simp at hfail
        | resp ok body total =>
          by_cases hok : ok = false ∨ body = false
          · simp only [if_pos hok] at hfail ⊢
            simp [loadStatesV0_saveStates, updateState_self, resetDownloading]
          · simp only [if_neg hok] at hfail ⊢
            set out := downloadLoopV0 k (loadStatesV0 w.storage) total evs 0 0
              (saveStates (updateState (loadStatesV0 w.storage) k ⟨.downloading, 0⟩)) []
              with hout
            by_cases hex : out.exitEarly = true
            · simp only [hex] at hfail
              simp at hfail
            · simp only [Bool.not_eq_true] at hex
              simp only [hex] at hfail ⊢
              cases en with
              | netError =>
                have htr := (downloadLoopV0_trace k (loadStatesV0 w.storage) total evs 0 0
                  (saveStates (updateState (loadStatesV0 w.storage) k ⟨.downloading, 0⟩)) []
                  (List.chain'_singleton _) rfl (by rw [jsRoundPercent_zero])).2
                rw [← hout] at htr
                rw [List.getLastD_eq_getLast?] at htr
                simp [loadStatesV0_saveStates, updateState_self, resetDownloading, htr]
              | abortErr => simp at hfail
              | done => simp at hfail

/-- Witness for C4: the mid-stream failure script satisfies the amended
claim — the persisted progress equals the last written value of the trace. -/
theorem C4_witness :
    loadStates ((startDownload .base scMidFail wEmpty).1.storage) .base
        = ⟨.notDownloaded, (startDownload .base scMidFail wEmpty).2.2.getLastD 0⟩ :=
  C4_failed_resets_state.1 .base scMidFail wEmpty rfl

end TranscribeAudio

namespace TranscribeAudio

/-- C3: cancelling while `'downloading'` settles the record at
`'not-downloaded'`/0.  In both variants `cancelDownload` persists
`'not-downloaded'`/0 and best-effort removes `models/<key>.bin` (file gone
when removal succeeds, disk untouched and error swallowed otherwise); and an
attempt whose chunk-boundary events include the cancel never reaches
`'downloaded'`: V1 breaks out of its loop at the persisted-state check and
returns silently, V0's next read rejects with the swallowed `AbortError` —
in both cases the final record is the cancel's `'not-downloaded'`/0. -/
theorem C3_cancel_settles_not_downloaded :
    (∀ (w : World) (k : ModelKey),
        loadStates ((cancelDownload k true w).storage) k = ⟨.notDownloaded, 0⟩ ∧
        (cancelDownload k true w).disk k = false) ∧
    (∀ (w : World) (k : ModelKey),
        loadStates ((cancelDownload k false w).storage) k = ⟨.notDownloaded, 0⟩ ∧
        (cancelDownload k false w).disk = w.disk) ∧
    (∀ (w : World) (k : ModelKey),
        loadStatesV0 ((cancelDownloadV0 k true w).storage) k = ⟨.notDownloaded, 0⟩ ∧
        (cancelDownloadV0 k true w).disk k = false) ∧
    (∀ (w : World) (k : ModelKey),
        loadStatesV0 ((cancelDownloadV0 k false w).storage) k = ⟨.notDownloaded, 0⟩ ∧
        (cancelDownloadV0 k false w).disk = w.disk) ∧
    (∀ (k : ModelKey) (sc : Script) (w : World) (total : Nat),
        (loadStates w.storage k).state ≠ .downloading →
        sc.mkdirOk = true →
        sc.fetch = .resp true true total →
        LoopEv.cancel ∈ sc.events →
        loadStates ((startDownload k sc w).1.storage) k = ⟨.notDownloaded, 0⟩ ∧
        (startDownload k sc w).2.1 = .staleExit) ∧
    (∀ (k : ModelKey) (sc : Script) (w : World) (total : Nat),
        (loadStatesV0 w.storage k).state ≠ .downloading →
        sc.mkdirOk = true →
        sc.fetch = .resp true true total →
        LoopEv.cancel ∈ sc.events →
        loadStatesV0 ((startDownloadV0 k sc w).1.storage) k = ⟨.notDownloaded, 0⟩ ∧
        (startDownloadV0 k sc w).2.1 = .aborted) := by
  refine ⟨?_, ?_, ?_, ?_, ?_, ?_⟩
  · intro w k
    constructor <;> simp [cancelDownload, cancelSave_self]
  · intro w k
    constructor <;> simp [cancelDownload, cancelSave_self]
  · intro w k
    constructor <;> simp [cancelDownloadV0, cancelSaveV0_self]
  · intro w k
    constructor <;> simp [cancelDownloadV0, cancelSaveV0_self]
  · intro k sc w total hg hmk hf hcm
    obtain ⟨mk, ft, evs, en⟩ := sc
    simp only at hmk hf hcm
    subst hmk
    subst hf
    have hc := downloadLoop_cancel k (loadStates w.storage) total evs 0 0
      (saveStates (updateState (loadStates w.storage) k ⟨.downloading, 0⟩)) [] hcm
      (by simp [loadStates_saveStates, updateState_self])
    simp only [startDownload, if_neg hg]
    norm_num
    simp [hc.1, hc.2]
  · intro k sc w total hg hmk hf hcm
    obtain ⟨mk, ft, evs, en⟩ := sc
    simp only at hmk hf hcm
    subst hmk
    subst hf
    have hc := downloadLoopV0_cancel k (loadStatesV0 w.storage) total evs 0 0
      (saveStates (updateState (loadStatesV0 w.storage) k ⟨.downloading, 0⟩)) [] hcm
    simp only [startDownloadV0, if_neg hg]
    norm_num
    simp [hc.1, hc.2]

/-- Witness for C3: cancelling the 100-byte download of `base` after its
first 30-byte chunk leaves the record `'not-downloaded'`/0 and the attempt
exits without completing. -/
theorem C3_witness :
    loadStates ((startDownload .base scCancelled wEmpty).1.storage) .base
        = ⟨.notDownloaded, 0⟩ ∧
    (startDownload .base scCancelled wEmpty).2.1 = .staleExit :=
  C3_cancel_settles_not_downloaded.2.2.2.2.1 .base scCancelled wEmpty 100
    (by decide) rfl rfl (by decide)

end TranscribeAudio

namespace TranscribeAudio

theorem loadStates_normalize_settled (s : Storage) (k : ModelKey) :
    Settled (loadStates (normalizeStatesOnStartup s) k) := by
  cases s with
  | absent => exact Or.inl rfl
  | corrupt => exact Or.inl rfl
  | parsed m =>
    simp only [normalizeStatesOnStartup]
    split_ifs with hchg
    · rw [loadStates_parsed]
      cases hmk : m k with
      | none => exact Or.inl rfl
      | some st =>
        simp only [hmk, Option.map_some', Option.getD_some]
        exact normalizeRecord_settled st
    · rw [List.any_eq_true] at hchg
      push_neg at hchg
      rw [loadStates_parsed]
      cases hmk : m k with
      | none => exact Or.inl rfl
      | some st =>
        have h2 := hchg k (mem_MODEL_KEYS k)
        simp only [hmk, ne_eq, decide_eq_true_eq, not_not] at h2
        simp only [Option.getD_some]
        exact fix_settled h2

theorem normalize_idem (s : Storage) :
    normalizeStatesOnStartup (normalizeStatesOnStartup s) = normalizeStatesOnStartup s := by
  cases s with
  | absent => rfl
  | corrupt => rfl
  | parsed m =>
    simp only [normalizeStatesOnStartup]
    split_ifs with hchg
    · simp only [normalizeStatesOnStartup]
      rw [if_neg]
      rw [List.any_eq_true]
      push_neg
      intro j hj
      cases hmj : m j with
      | none => simp [hmj]
      | some st => simp [hmj, settled_fix (normalizeRecord_settled st)]
    · simp only [normalizeStatesOnStartup]
      rw [if_neg]
      exact hchg

theorem normalize_saveStates_settled (f : ModelKey → ModelState)
    (hf : ∀ j, Settled (f j)) :
    normalizeStatesOnStartup (saveStates f) = saveStates f := by
  simp only [saveStates, normalizeStatesOnStartup]
  rw [if_neg]
  rw [List.any_eq_true]
  push_neg
  intro j hj
  simp [settled_fix (hf j)]

theorem loadStates_check (d : ModelKey → Bool) (s : Storage) (k : ModelKey) :
    loadStates (checkExistingFiles d s) k =
      if (loadStates s k).state = .downloaded ∧ d k = false then ⟨.notDownloaded, 0⟩
      else loadStates s k := by
  by_cases hk : (loadStates s k).state = .downloaded ∧ d k = false
  · rw [if_pos hk]
    have hchg : (MODEL_KEYS.any fun j =>
        decide ((loadStates s j).state = .downloaded) && !(d j)) = true := by
      rw [List.any_eq_true]
      exact ⟨k, mem_MODEL_KEYS k, by simp [hk.1, hk.2]⟩
    simp only [checkExistingFiles]
    rw [if_pos hchg, loadStates_saveStates]
    simp [hk.1, hk.2]
  · rw [if_neg hk]
    simp only [checkExistingFiles]
    split_ifs with hchg
    · rw [loadStates_saveStates]
      by_cases hA : (loadStates s k).state = .downloaded
      · have hB : ¬ d k = false := fun h => hk ⟨hA, h⟩
        simp [hA, hB]
      · simp [hA]
    · rfl

theorem check_no_bad (d : ModelKey → Bool) (s : Storage) (k : ModelKey) :
    (loadStates (checkExistingFiles d s) k).state = .downloaded → d k = true := by
  rw [loadStates_check]
  split_ifs with h
  · intro hcontr
    simp at hcontr
  · intro hdd
    by_contra hdk
    rw [Bool.not_eq_true] at hdk
    exact h ⟨hdd, hdk⟩

theorem check_fixed_of_no_bad (d : ModelKey → Bool) (s : Storage)
    (h : ∀ j, (loadStates s j).state = .downloaded → d j = true) :
    checkExistingFiles d s = s := by
  simp only [checkExistingFiles]
  rw [if_neg]
  rw [List.any_eq_true]
  push_neg
  intro j hj
  by_cases hdd : (loadStates s j).state = .downloaded
  · simp [hdd, h j hdd]
  · simp [hdd]

theorem startupPass_idem (d : ModelKey → Bool) (s : Storage) :
    startupPass d (startupPass d s) = startupPass d s := by
  unfold startupPass
  have hnorm : normalizeStatesOnStartup
      (checkExistingFiles d (normalizeStatesOnStartup s))
      = checkExistingFiles d (normalizeStatesOnStartup s) := by
    simp only [checkExistingFiles]
    split_ifs with hchg
    · apply normalize_saveStates_settled
      intro j
      split_ifs with h1 h2
      · exact Or.inl rfl
      · exact loadStates_normalize_settled s j
      · exact loadStates_normalize_settled s j
    · exact normalize_idem s
  rw [hnorm]
  exact check_fixed_of_no_bad d _ (fun j => check_no_bad d (normalizeStatesOnStartup s) j)

/-- C7: the startup repair pass — `normalizeStatesOnStartup` followed by
`checkExistingFiles` against a fixed disk — is idempotent: running it twice
on any persisted store yields the same final mapping (indeed the same
store) as running it once. -/
theorem C7_startup_pass_idempotent :
    ∀ (onDisk : ModelKey → Bool) (s : Storage),
      loadStates (startupPass onDisk (startupPass onDisk s))
        = loadStates (startupPass onDisk s) := by
  intro d s
  rw [startupPass_idem]

end TranscribeAudio
